import Mathlib

/-
Verification development for the cloud-ngfw-aws-go client library
(src/client.go, package cloudngfw).

The development shallowly embeds the configuration resolver (initCon),
the token manager (RefreshJwts) and the request dispatcher (Communicate)
as pure Lean functions.  External collaborators (the AWS session / STS
services, the HTTP transport, the v4 signer, json.Marshal of arbitrary
Go values, and the credentials-file read) are passed in as explicit
oracle arguments, so every branch of the Go code remains visible.

Go byte slices carrying textual data are modelled as String; Go maps
from string to string are modelled as association lists; the Go `error`
interface is modelled by the inductive `Err`, one constructor per error
production site.
-/

/-- Error values.  Each constructor corresponds to an error produced (or
propagated) somewhere in client.go; oracle arguments also deliver their
failures through this type. -/
inductive Err where
  | onlyOneCreds
  | marshalFailure
  | requestBuildFailure
  | unknownAuth (s : String)
  | signFailure
  | transportFailure
  | unmarshalFailure
  | apiError
  | fileReadFailure
  | fileUnmarshalFailure
  | invalidProtocol (p : String)
  | timeoutAtoiFailure
  | invalidTimeout (host : String)
  | headersUnmarshalFailure
  | verifyParseBoolFailure
  | unknownLoggingToken (x : String)
  | noRegion
  | noHost
  | sessionFailure
  | assumeRoleFailure
  | sharedArnNoEndpoint
deriving DecidableEq, Repr

/-- Modelled from the spec: the logging bitmask constants LogQuiet, LogLogin,
LogGet, LogPost, LogPut, LogDelete, LogPath, LogSend, LogReceive are declared
in a repository file that is not part of src/; the spec describes them as "a
set of independent flags ... multiple flags combine by bitwise OR", so they
are modelled as distinct single bits. -/
def LogQuiet : Nat := 1

/-- Modelled from the spec: see LogQuiet. -/
def LogLogin : Nat := 2

/-- Modelled from the spec: see LogQuiet. -/
def LogGet : Nat := 4

/-- Modelled from the spec: see LogQuiet. -/
def LogPost : Nat := 8

/-- Modelled from the spec: see LogQuiet. -/
def LogPut : Nat := 16

/-- Modelled from the spec: see LogQuiet. -/
def LogDelete : Nat := 32

/-- Modelled from the spec: see LogQuiet. -/
def LogPath : Nat := 64

/-- Modelled from the spec: see LogQuiet. -/
def LogSend : Nat := 128

/-- Modelled from the spec: see LogQuiet. -/
def LogReceive : Nat := 256

/-- Modelled from the spec: the permissions package (not part of src/)
declares the auth-scope constant for firewall administration; the spec's
AuthScope enumeration is \x7bnone, firewall, rulestack\x7d. -/
def permissions.Firewall : String := "firewall"

/-- Modelled from the spec: see permissions.Firewall. -/
def permissions.Rulestack : String := "rulestack"

/- ---------------------------------------------------------------------
String utilities modelling the Go standard-library helpers used by
client.go: strings.Split(s, ","), strconv.Atoi, strconv.ParseBool,
strings.Join(path, "/").
--------------------------------------------------------------------- -/

/-- strings.Split(s, ",") on the character list; Split of the empty
string yields one empty field, matching Go. -/
def splitCommaChars : List Char → List (List Char)
  | [] => [[]]
  | c :: rest =>
    if c.toNat = 44 then [] :: splitCommaChars rest
    else
      match splitCommaChars rest with
      | g :: gs => (c :: g) :: gs
      | [] => [[c]]

/-- strings.Split(s, ","). -/
def splitComma (s : String) : List String :=
  (splitCommaChars s.data).map String.mk

def isDigitChar (c : Char) : Bool := 48 ≤ c.toNat && c.toNat ≤ 57

def digitVal (c : Char) : Nat := c.toNat - 48

def digitsToNat (ds : List Char) : Nat :=
  ds.foldl (fun acc d => acc * 10 + digitVal d) 0

/-- strconv.Atoi: optional sign followed by one or more digits.
(Integer overflow of Go's 64-bit int is not modelled; the resolver only
compares the result with zero.) -/
def atoi (s : String) : Option Int :=
  match s.data with
  | [] => none
  | c :: rest =>
    if c.toNat = 43 then
      if rest ≠ [] ∧ rest.all isDigitChar then some (Int.ofNat (digitsToNat rest)) else none
    else if c.toNat = 45 then
      if rest ≠ [] ∧ rest.all isDigitChar then some (-(Int.ofNat (digitsToNat rest))) else none
    else
      if (c :: rest).all isDigitChar then some (Int.ofNat (digitsToNat (c :: rest))) else none

/-- strconv.ParseBool accepts exactly these thirteen strings minus the
empty one: 1, t, T, TRUE, true, True, 0, f, F, FALSE, false, False. -/
def parseBool (s : String) : Option Bool :=
  if s = "1" ∨ s = "t" ∨ s = "T" ∨ s = "TRUE" ∨ s = "true" ∨ s = "True" then some true
  else if s = "0" ∨ s = "f" ∨ s = "F" ∨ s = "FALSE" ∨ s = "false" ∨ s = "False" then some false
  else none

/-- strings.Join(path, "/"). -/
def joinSlash : List String → String
  | [] => ""
  | [s] => s
  | s :: rest => s ++ "/" ++ joinSlash rest

/- ---------------------------------------------------------------------
JSON syntax (encoding/json).  client.go calls json.Unmarshal on the
response body, on the CLOUD_NGFW_HEADERS environment value and on the
credentials file.  The grammar below follows RFC 8259 as implemented by
encoding/json: a single value with optional surrounding whitespace.
Character classes are compared through code points to keep the source
free of quote/backslash character literals.
--------------------------------------------------------------------- -/

inductive Json where
  | jnull
  | jbool (b : Bool)
  | jnum (lexeme : String)
  | jstr (s : String)
  | jarr (elems : List Json)
  | jobj (members : List (String × Json))

def isWsChar (c : Char) : Bool :=
  c.toNat = 32 || c.toNat = 9 || c.toNat = 10 || c.toNat = 13

def skipWs : List Char → List Char
  | [] => []
  | c :: rest => if isWsChar c then skipWs rest else c :: rest

def isHexDigitChar (c : Char) : Bool :=
  isDigitChar c || (65 ≤ c.toNat && c.toNat ≤ 70) || (97 ≤ c.toNat && c.toNat ≤ 102)

def hexVal (c : Char) : Nat :=
  if isDigitChar c then c.toNat - 48
  else if 65 ≤ c.toNat && c.toNat ≤ 70 then c.toNat - 55
  else c.toNat - 87

/-- The character denoted by a single-character escape (98 = b, 102 = f,
110 = n, 114 = r, 116 = t; quote, backslash and slash denote themselves). -/
def escChar (n : Nat) : Char :=
  if n = 98 then Char.ofNat 8
  else if n = 102 then Char.ofNat 12
  else if n = 110 then Char.ofNat 10
  else if n = 114 then Char.ofNat 13
  else if n = 116 then Char.ofNat 9
  else Char.ofNat n

/-- Parse the body of a JSON string literal (the opening quote already
consumed), returning the decoded characters and the remaining input.
Surrogate-pair combination of unicode escapes is not modelled. -/
def parseStrBody : Nat → List Char → Option (List Char × List Char)
  | 0, _ => none
  | _, [] => none
  | fuel+1, ch :: rest =>
    if ch.toNat = 34 then some ([], rest)
    else if ch.toNat = 92 then
      match rest with
      | [] => none
      | e :: rest2 =>
        if e.toNat = 34 || e.toNat = 92 || e.toNat = 47 || e.toNat = 98 ||
           e.toNat = 102 || e.toNat = 110 || e.toNat = 114 || e.toNat = 116 then
          match parseStrBody fuel rest2 with
          | some (s, r) => some (escChar e.toNat :: s, r)
          | none => none
        else if e.toNat = 117 then
          match rest2 with
          | h1 :: h2 :: h3 :: h4 :: rest3 =>
            if isHexDigitChar h1 && isHexDigitChar h2 && isHexDigitChar h3 && isHexDigitChar h4 then
              match parseStrBody fuel rest3 with
              | some (s, r) =>
                some (Char.ofNat (((hexVal h1 * 16 + hexVal h2) * 16 + hexVal h3) * 16 + hexVal h4) :: s, r)
              | none => none
            else none
          | _ => none
        else none
    else if ch.toNat < 32 then none
    else
      match parseStrBody fuel rest with
      | some (s, r) => some (ch :: s, r)
      | none => none

/-- Match a fixed sequence of code points at the head of the input. -/
def stripChars : List Nat → List Char → Option (List Char)
  | [], cs => some cs
  | n :: ns, c :: cs => if c.toNat = n then stripChars ns cs else none
  | _ :: _, [] => none

/-- Parse a JSON number lexeme: -? (0 | [1-9][0-9]*) frac? exp?. -/
def parseNum (cs : List Char) : Option (List Char × List Char) :=
  let signSplit : List Char × List Char :=
    match cs with
    | c :: rest => if c.toNat = 45 then ([c], rest) else ([], cs)
    | [] => ([], [])
  match signSplit.2 with
  | [] => none
  | d :: rest =>
    if !isDigitChar d then none
    else
      let intSplit : List Char × List Char :=
        if d.toNat = 48 then ([d], rest)
        else
          let sp := rest.span isDigitChar
          (d :: sp.1, sp.2)
      let fracRes : Option (List Char × List Char) :=
        match intSplit.2 with
        | p :: r2 =>
          if p.toNat = 46 then
            match r2.span isDigitChar with
            | ([], _) => none
            | (fs, r3) => some (p :: fs, r3)
          else some ([], intSplit.2)
        | [] => some ([], [])
      match fracRes with
      | none => none
      | some (fracPart, cs3) =>
        let expRes : Option (List Char × List Char) :=
          match cs3 with
          | e :: r4 =>
            if e.toNat = 101 || e.toNat = 69 then
              let sgnSplit : List Char × List Char :=
                match r4 with
                | s :: r5x => if s.toNat = 43 || s.toNat = 45 then ([s], r5x) else ([], r4)
                | [] => ([], [])
              match sgnSplit.2.span isDigitChar with
              | ([], _) => none
              | (es, r6) => some (e :: (sgnSplit.1 ++ es), r6)
            else some ([], cs3)
          | [] => some ([], [])
        match expRes with
        | none => none
        | some (expPart, cs4) => some (signSplit.1 ++ intSplit.1 ++ fracPart ++ expPart, cs4)

mutual

/-- Parse one JSON value (fuel-indexed recursive descent). -/
def parseValue : Nat → List Char → Option (Json × List Char)
  | 0, _ => none
  | fuel+1, cs =>
    match skipWs cs with
    | [] => none
    | c :: rest =>
      if c.toNat = 110 then
        match stripChars [117, 108, 108] rest with
        | some r => some (.jnull, r)
        | none => none
      else if c.toNat = 116 then
        match stripChars [114, 117, 101] rest with
        | some r => some (.jbool true, r)
        | none => none
      else if c.toNat = 102 then
        match stripChars [97, 108, 115, 101] rest with
        | some r => some (.jbool false, r)
        | none => none
      else if c.toNat = 34 then
        match parseStrBody (rest.length + 1) rest with
        | some (s, r) => some (.jstr (String.mk s), r)
        | none => none
      else if c.toNat = 91 then
        match skipWs rest with
        | d :: r2 =>
          if d.toNat = 93 then some (.jarr [], r2)
          else
            match parseElems fuel (d :: r2) with
            | some (xs, r3) => some (.jarr xs, r3)
            | none => none
        | [] => none
      else if c.toNat = 123 then
        match skipWs rest with
        | d :: r2 =>
          if d.toNat = 125 then some (.jobj [], r2)
          else
            match parseMembers fuel (d :: r2) with
            | some (kvs, r3) => some (.jobj kvs, r3)
            | none => none
        | [] => none
      else
        match parseNum (c :: rest) with
        | some (lex, r) => some (.jnum (String.mk lex), r)
        | none => none

/-- Parse the comma-separated elements of a non-empty array up to the
closing bracket. -/
def parseElems : Nat → List Char → Option (List Json × List Char)
  | 0, _ => none
  | fuel+1, cs =>
    match parseValue fuel cs with
    | none => none
    | some (v, r) =>
      match skipWs r with
      | c :: r2 =>
        if c.toNat = 44 then
          match parseElems fuel r2 with
          | some (vs, r3) => some (v :: vs, r3)
          | none => none
        else if c.toNat = 93 then some ([v], r2)
        else none
      | [] => none

/-- Parse the members of a non-empty object up to the closing brace. -/
def parseMembers : Nat → List Char → Option (List (String × Json) × List Char)
  | 0, _ => none
  | fuel+1, cs =>
    match skipWs cs with
    | c :: rest =>
      if c.toNat = 34 then
        match parseStrBody (rest.length + 1) rest with
        | some (k, r) =>
          match skipWs r with
          | d :: r2 =>
            if d.toNat = 58 then
              match parseValue fuel r2 with
              | some (v, r3) =>
                match skipWs r3 with
                | e2 :: r4 =>
                  if e2.toNat = 44 then
                    match parseMembers fuel r4 with
                    | some (kvs, r5) => some ((String.mk k, v) :: kvs, r5)
                    | none => none
                  else if e2.toNat = 125 then some ([(String.mk k, v)], r4)
                  else none
                | [] => none
              | none => none
            else none
          | [] => none
        | none => none
      else none
    | [] => none

end

/-- json syntax check and parse of a full input: one value, surrounded
only by whitespace (as required by json.Unmarshal). -/
def parseJson (s : String) : Option Json :=
  match parseValue (2 * s.length + 2) s.data with
  | some (j, rest) => if skipWs rest = [] then some j else none
  | none => none

/- ---------------------------------------------------------------------
Header maps.  net/http Header.Set canonicalizes the key via
textproto.CanonicalMIMEHeaderKey and replaces any previous value; a Go
map[string]string keeps exact keys with replace-on-insert.  Both are
modelled as association lists.
--------------------------------------------------------------------- -/

/-- RFC 7230 token characters (net/textproto validHeaderFieldByte). -/
def isTokenChar (c : Char) : Bool :=
  let n := c.toNat
  (48 ≤ n && n ≤ 57) || (65 ≤ n && n ≤ 90) || (97 ≤ n && n ≤ 122) ||
  [33, 35, 36, 37, 38, 39, 42, 43, 45, 46, 94, 95, 96, 124, 126].contains n

/-- Upper-case the first letter of each hyphen-separated word, lower-case
the rest (textproto canonical form). -/
def canonChars : Bool → List Char → List Char
  | _, [] => []
  | up, ch :: rest =>
    if ch.toNat = 45 then ch :: canonChars true rest
    else (if up then ch.toUpper else ch.toLower) :: canonChars false rest

/-- textproto.CanonicalMIMEHeaderKey: returned unchanged when any
character is not a token character. -/
def canonicalKey (s : String) : String :=
  if s.data.all isTokenChar then String.mk (canonChars true s.data) else s

/-- http.Header.Set: store the canonical key, replacing an existing entry. -/
def setHeader (hs : List (String × String)) (k v : String) : List (String × String) :=
  let ck := canonicalKey k
  if hs.any (fun p => p.1 = ck) then hs.map (fun p => if p.1 = ck then (ck, v) else p)
  else hs ++ [(ck, v)]

/-- http.Header.Get. -/
def getHeader (hs : List (String × String)) (k : String) : Option String :=
  (hs.find? (fun p => p.1 = canonicalKey k)).map (fun p => p.2)

/-- Go-map insertion (exact key, replace-on-insert), used for
map[string]string values decoded from JSON. -/
def mapSet (m : List (String × String)) (k v : String) : List (String × String) :=
  if m.any (fun p => p.1 = k) then m.map (fun p => if p.1 = k then (k, v) else p)
  else m ++ [(k, v)]

/-- json.Unmarshal of a JSON value into a map[string]string: null leaves
the map empty without error; an object needs every member value to be a
string (later duplicate keys overwrite earlier ones); anything else is a
type error. -/
def jsonToStringMap : Json → Option (List (String × String))
  | .jnull => some []
  | .jobj kvs =>
    kvs.foldl
      (fun acc kv =>
        match acc, kv.2 with
        | some m, .jstr s => some (mapSet m kv.1 s)
        | _, _ => none)
      (some [])
  | _ => none

/-- net/http NewRequest method validation: an empty method defaults to
GET, then every character must be a token character. -/
def newReqMethod (m : String) : String := if m = "" then "GET" else m

def validMethod (m : String) : Bool :=
  m ≠ "" && m.data.all isTokenChar

/- ---------------------------------------------------------------------
The Client structure (the modelled subset of the Go struct: the
*http.Transport and *http.Client fields carry no modelled state, and the
per-test bookkeeping beyond the data slice is unused by the embedded
functions).  testData is the preloaded fake response data; only its
length is consulted by the embedded code, but it is kept as a list to
mirror the [][]byte field.
--------------------------------------------------------------------- -/

structure Client where
  Host : String := ""
  AccessKey : String := ""
  SecretKey : String := ""
  Region : String := ""
  Protocol : String := ""
  Timeout : Int := 0
  Headers : List (String × String) := []
  LfaArn : String := ""
  LraArn : String := ""
  Arn : String := ""
  CheckEnvironment : Bool := false
  SkipVerifyCertificate : Bool := false
  Logging : Nat := 0
  LoggingTokensField : List String := []  -- LoggingTokensField models the json-tagged logging list of the Go struct
  FirewallJwt : String := ""
  RulestackJwt : String := ""
  credsFile : String := ""
  apiRoot : String := ""
  testData : List String := []
  authFileContent : String := ""
deriving DecidableEq, Repr

/-- The zero value Client\x7b\x7d used for json_client before the
credentials file is loaded. -/
def emptyClient : Client := {}

/-- sts.Credentials (AccessKeyId, SecretAccessKey, SessionToken). -/
structure Creds where
  AccessKeyId : String := ""
  SecretAccessKey : String := ""
  SessionToken : String := ""
deriving DecidableEq, Repr

/-- The modelled parts of an http.Request: method, URL, header map and
serialized body. -/
structure Request where
  method : String := ""
  url : String := ""
  headers : List (String × String) := []
  body : String := ""
deriving DecidableEq, Repr

/-- The api.Oker output target: whether json.Unmarshal of a
syntactically valid JSON value into the target succeeds, and what the
target's Ok() check then reports.  Both are deterministic functions of
the decoded value. -/
structure OkBehavior where
  decodeOk : Json → Bool
  ok : Json → Bool

/-- The observable outcome of Communicate: the client state (returned
explicitly to express that the Go method never writes its receiver), the
request as assembled by the header-configuration phase (before optional
v4 signing), the request handed to the transport (after signing), and
the ([]byte, error) pair the Go function returns. -/
structure CommResult where
  client : Client
  built : Option Request
  sent : Option Request
  body : Option String
  err : Option Err

/-- The fixed stub body used by the offline/testing branch. -/
def testStub : String := "\x7b\"test\"\x7d"

/-- Response handling from line 287 on: no output target returns the
body as-is; otherwise json.Unmarshal (syntax, then target decode), then
the target's Ok() check, whose failure returns the target itself as the
error value. -/
def finishResp (c : Client) (built sent : Option Request) (body : String)
    (output : Option OkBehavior) : CommResult :=
  match output with
  | none => ⟨c, built, sent, some body, none⟩
  | some ob =>
    match parseJson body with
    | none => ⟨c, built, sent, some body, some .unmarshalFailure⟩
    | some j =>
      if !ob.decodeOk j then ⟨c, built, sent, some body, some .unmarshalFailure⟩
      else if !ob.ok j then ⟨c, built, sent, some body, some .apiError⟩
      else ⟨c, built, sent, some body, none⟩

/-- con.Do plus ioutil.ReadAll, as one oracle call: a transport error
returns (nil, err). -/
def sendIt (c : Client) (built reqS : Request) (output : Option OkBehavior)
    (doSend : Request → Except Err String) : CommResult :=
  match doSend reqS with
  | .error e => ⟨c, some built, some reqS, none, some e⟩
  | .ok body => finishResp c (some built) (some reqS) body output

/-- Custom-header application, optional v4 signing (the signer is an
oracle receiving the request and c.Region and returning the signed
request or an error), then the send. -/
def sendPhase (c : Client) (req2 : Request) (output : Option OkBehavior)
    (creds : List Creds) (sign : Request → String → Except Err Request)
    (doSend : Request → Except Err String) : CommResult :=
  let req3 := c.Headers.foldl (fun r p => { r with headers := setHeader r.headers p.1 p.2 }) req2
  if creds.length = 1 then
    match sign req3 c.Region with
    | .error e => ⟨c, some req3, none, none, some e⟩
    | .ok reqS => sendIt c req3 reqS output doSend
  else sendIt c req3 req3 output doSend

/-- Communicate (client.go lines 209-305).

input models the Go input value together with its json.Marshal outcome:
none is a nil input (no body, no marshal call); some (.ok data) is a
value serializing to data; some (.error e) is a value whose
serialization fails.  sign and doSend are the signer and transport
oracles.  URL parsing inside http.NewRequest is treated as always
succeeding (url.Parse accepts any control-character-free string), so
request construction can only fail on an invalid method. -/
def Communicate (c : Client) (auth method : String) (path : List String)
    (input : Option (Except Err String)) (output : Option OkBehavior)
    (creds : List Creds) (sign : Request → String → Except Err Request)
    (doSend : Request → Except Err String) : CommResult :=
  -- Sanity check the input.
  if creds.length > 1 then ⟨c, none, none, none, some .onlyOneCreds⟩
  else
    -- Convert input into JSON.
    match (match input with
           | none => Except.ok ""
           | some r => r) with
    | .error e => ⟨c, none, none, none, some e⟩
    | .ok data =>
      -- Testing.
      if c.testData.length > 0 then
        finishResp c none none testStub output
      else
        -- Create the request.
        if !validMethod (newReqMethod method) then ⟨c, none, none, none, some .requestBuildFailure⟩
        else
          let req0 : Request :=
            { method := newReqMethod method
              url := c.apiRoot ++ "/" ++ joinSlash path
              headers := []
              body := data }
          -- Configure headers.
          let req1 := { req0 with headers := setHeader req0.headers "Content-Type" "application/json" }
          if auth = "" then
            sendPhase c req1 output creds sign doSend
          else if auth = permissions.Firewall then
            sendPhase c { req1 with headers := setHeader req1.headers "Authorization" c.FirewallJwt }
              output creds sign doSend
          else if auth = permissions.Rulestack then
            sendPhase c { req1 with headers := setHeader req1.headers "Authorization" c.RulestackJwt }
              output creds sign doSend
          else ⟨c, none, none, none, some (.unknownAuth auth)⟩

/- ---------------------------------------------------------------------
RefreshJwts (client.go lines 105-188).

The AWS collaborators are oracles: sess is the outcome of
session.NewSessionWithOptions (its error is returned before anything
else is examined); assumeRole maps an ARN to the outcome of
svc.AssumeRole; fetchJwt stands for the c.Communicate call issued with
scope "", method GET, path v1/mgmt/tokens/<role>, the fixed getJwt
payload and the assumed credentials, composed with the authResponse
decode (authResponse lives outside src/): it yields either the
propagated error or the token string ans.Resp.Jwt.  The login log lines
only write to the log and are not modelled.
--------------------------------------------------------------------- -/

def RefreshJwts (c : Client) (sess : Except Err Unit)
    (assumeRole : String → Except Err Creds)
    (fetchJwt : String → Creds → Except Err String) : Client × Option Err :=
  match sess with
  | .error e => (c, some e)
  | .ok _ =>
    -- Get a JWT that works for both firewall and rulestack admins.
    if c.Arn ≠ "" then (c, some .sharedArnNoEndpoint)
    else
      -- Get a firewall JWT.
      match (if c.LfaArn ≠ "" then
               match assumeRole c.LfaArn with
               | .error e => (c, some e)
               | .ok cr =>
                 match fetchJwt "cloudfirewalladmin" cr with
                 | .error e => (c, some e)
                 | .ok jwt => ({ c with FirewallJwt := jwt }, none)
             else (c, none)) with
      | (c2, some e) => (c2, some e)
      | (c2, none) =>
        -- Get rulestack JWT.
        if c2.LraArn ≠ "" then
          match assumeRole c2.LraArn with
          | .error e => (c2, some e)
          | .ok cr =>
            match fetchJwt "cloudrulestackadmin" cr with
            | .error e => (c2, some e)
            | .ok jwt => ({ c2 with RulestackJwt := jwt }, none)
        else (c2, none)

/- ---------------------------------------------------------------------
initCon (client.go lines 309-478).

Each commented block of the Go function becomes one step of type
Client → Client × Option Err; a step returning some error aborts the
sequence with the state reached so far, exactly as the Go early returns
do.  env models os.Getenv (empty string when unset).  fileLoad is the
combined outcome of reading and unmarshalling the credentials file
(consulted only when credsFile is non-empty).  The http.Transport /
http.Client construction carries no modelled state and is omitted; the
uri-prefix assignment is the final step.
--------------------------------------------------------------------- -/

/-- Host block. -/
def hostStep (envv : String) (jc c : Client) : Client × Option Err :=
  if c.Host = "" then
    if c.CheckEnvironment = true ∧ envv ≠ "" then ({ c with Host := envv }, none)
    else ({ c with Host := jc.Host }, none)
  else (c, none)

/-- Region block. -/
def regionStep (envv : String) (jc c : Client) : Client × Option Err :=
  if c.Region = "" then
    if c.CheckEnvironment = true ∧ envv ≠ "" then ({ c with Region := envv }, none)
    else ({ c with Region := jc.Region }, none)
  else (c, none)

/-- Protocol block, resolution part. -/
def protocolStep (envv : String) (jc c : Client) : Client × Option Err :=
  if c.Protocol = "" then
    if c.CheckEnvironment = true ∧ envv ≠ "" then ({ c with Protocol := envv }, none)
    else if jc.Protocol ≠ "" then ({ c with Protocol := jc.Protocol }, none)
    else ({ c with Protocol := "https" }, none)
  else (c, none)

/-- Protocol block, validation part. -/
def protocolCheck (c : Client) : Client × Option Err :=
  if c.Protocol ≠ "http" ∧ c.Protocol ≠ "https" then (c, some (.invalidProtocol c.Protocol))
  else (c, none)

/-- Timeout block, resolution part (the environment value goes through
strconv.Atoi and a parse failure is a hard error). -/
def timeoutStep (envv : String) (jc c : Client) : Client × Option Err :=
  if c.Timeout = 0 then
    if c.CheckEnvironment = true ∧ envv ≠ "" then
      match atoi envv with
      | none => (c, some .timeoutAtoiFailure)
      | some i => ({ c with Timeout := i }, none)
    else if jc.Timeout ≠ 0 then ({ c with Timeout := jc.Timeout }, none)
    else ({ c with Timeout := 20 }, none)
  else (c, none)

/-- Timeout block, validation part. -/
def timeoutCheck (c : Client) : Client × Option Err :=
  if c.Timeout ≤ 0 then (c, some (.invalidTimeout c.Host)) else (c, none)

/-- Headers block: an environment value is json.Unmarshal-ed into the
header map (a hard error when malformed); a still-empty map is then
copied wholesale from the file-sourced config. -/
def headersStep (envv : String) (jc c : Client) : Client × Option Err :=
  if c.Headers.length = 0 then
    match (if c.CheckEnvironment = true ∧ envv ≠ "" then
             match parseJson envv with
             | none => Except.error Err.headersUnmarshalFailure
             | some j =>
               match jsonToStringMap j with
               | none => Except.error Err.headersUnmarshalFailure
               | some m => Except.ok m
           else Except.ok c.Headers) with
    | .error e => (c, some e)
    | .ok h1 =>
      if h1.length = 0 ∧ jc.Headers.length > 0 then ({ c with Headers := jc.Headers }, none)
      else ({ c with Headers := h1 }, none)
  else (c, none)

/-- Verify-cert block: strconv.ParseBool of the environment value (parse
failure is a hard error, a parsed false is ignored), then the
file-sourced flag; once true the flag stays true. -/
def skipVerifyStep (envv : String) (jc c : Client) : Client × Option Err :=
  if c.SkipVerifyCertificate = false then
    match (if c.CheckEnvironment = true ∧ envv ≠ "" then parseBool envv else some false) with
    | none => (c, some .verifyParseBoolFailure)
    | some vcb =>
      let c1 := if vcb then { c with SkipVerifyCertificate := true } else c
      if c1.SkipVerifyCertificate = false ∧ jc.SkipVerifyCertificate = true then
        ({ c1 with SkipVerifyCertificate := true }, none)
      else (c1, none)
  else (c, none)

def logFlagOf (x : String) : Option Nat :=
  if x = "quiet" then some LogQuiet
  else if x = "login" then some LogLogin
  else if x = "get" then some LogGet
  else if x = "post" then some LogPost
  else if x = "put" then some LogPut
  else if x = "delete" then some LogDelete
  else if x = "path" then some LogPath
  else if x = "send" then some LogSend
  else if x = "receive" then some LogReceive
  else none

/-- The token loop: lv |= flag per recognized token, a hard error on an
unknown one. -/
def parseLogFlags (ll : List String) (lv : Nat) : Except Err Nat :=
  match ll with
  | [] => .ok lv
  | x :: rest =>
    match logFlagOf x with
    | some f => parseLogFlags rest (lv ||| f)
    | none => .error (.unknownLoggingToken x)

/-- The token list: the comma-split environment value when environment
reading is enabled and the variable is non-empty, else the file-sourced
list. -/
def loggingList (envv : String) (jc c : Client) : List String :=
  if c.CheckEnvironment = true ∧ envv ≠ "" then splitComma envv
  else jc.LoggingTokensField

/-- Logging block: only consulted when the explicit bitmask is zero; a
non-empty token list is parsed, an empty one yields the default
bitmask. -/
def loggingStep (envv : String) (jc c : Client) : Client × Option Err :=
  if c.Logging = 0 then
    if (loggingList envv jc c).length > 0 then
      match parseLogFlags (loggingList envv jc c) 0 with
      | .error e => (c, some e)
      | .ok lv => ({ c with Logging := lv }, none)
    else ({ c with Logging := LogLogin ||| LogPost ||| LogPut ||| LogDelete }, none)
  else (c, none)

/-- Sanity checks (region before host, as in the source). -/
def sanityCheck (c : Client) : Client × Option Err :=
  if c.Region = "" then (c, some .noRegion)
  else if c.Host = "" then (c, some .noHost)
  else (c, none)

/-- Configure the uri prefix. -/
def apiRootStep (c : Client) : Client × Option Err :=
  ({ c with apiRoot := c.Protocol ++ "://" ++ c.Host }, none)

/-- Run steps in order, aborting at the first error with the state
reached so far. -/
def runSteps (steps : List (Client → Client × Option Err)) (c : Client) : Client × Option Err :=
  match steps with
  | [] => (c, none)
  | f :: rest =>
    match f c with
    | (c2, some e) => (c2, some e)
    | (c2, none) => runSteps rest c2

/-- The block sequence of initCon after the credentials file is loaded. -/
def stepList (env : String → String) (jc : Client) : List (Client → Client × Option Err) :=
  [hostStep (env "CLOUD_NGFW_HOST") jc,
   regionStep (env "CLOUD_NGFW_REGION") jc,
   protocolStep (env "CLOUD_NGFW_PROTOCOL") jc,
   protocolCheck,
   timeoutStep (env "CLOUD_NGFW_TIMEOUT") jc,
   timeoutCheck,
   headersStep (env "CLOUD_NGFW_HEADERS") jc,
   skipVerifyStep (env "CLOUD_NGFW_VERIFY_CERTIFICATE") jc,
   loggingStep (env "CLOUD_NGFW_LOGGING") jc,
   sanityCheck,
   apiRootStep]

/-- initCon: load the credentials file into json_client (the zero Client
when no file is configured; fileLoad combines the read -- replaced by
authFileContent under test data -- and the unmarshal), then run the
resolution blocks. -/
def initCon (c : Client) (env : String → String) (fileLoad : Except Err Client) :
    Client × Option Err :=
  match (if c.credsFile = "" then Except.ok emptyClient else fileLoad) with
  | .error e => (c, some e)
  | .ok jc => runSteps (stepList env jc) c

/- ---------------------------------------------------------------------
Concrete fixtures used by witnesses and counterexamples.
--------------------------------------------------------------------- -/

/-- An environment with every variable unset. -/
def envNone : String → String := fun _ => ""

/-- An environment answering every variable with the same value. -/
def envConst (v : String) : String → String := fun _ => v

/-- A signer oracle that signs without modifying the request. -/
def signId : Request → String → Except Err Request := fun r _ => .ok r

/-- A transport oracle answering every request with the same body. -/
def sendConst (b : String) : Request → Except Err String := fun _ => .ok b

/-- Scenario-A client: only host and region set. -/
def cHostRegion : Client := { Host := "h", Region := "r" }

/-- A client with every claim-relevant field explicitly set, environment
reading enabled. -/
def cExplicit : Client :=
  { Host := "h", Region := "r", Protocol := "http", Timeout := 7,
    Headers := [("K", "V")], Logging := 5, CheckEnvironment := true }

/-- A fully populated credentials-file outcome. -/
def flPopulated : Except Err Client :=
  Except.ok { Host := "fh", Region := "fr", Protocol := "https", Timeout := 9,
              Headers := [("F", "G")], LoggingTokensField := ["get"] }

/-- A client whose custom headers contain an Authorization entry. -/
def cAuthHdr : Client :=
  { apiRoot := "https://h", Headers := [("Authorization", "custom")], FirewallJwt := "fw" }

/-- A client with both tokens cached and no custom headers. -/
def cFw : Client := { apiRoot := "https://h", FirewallJwt := "fw", RulestackJwt := "rs" }

/-- An output target that decodes any JSON value and always reports
failure from Ok(). -/
def obReject : OkBehavior := { decodeOk := fun _ => true, ok := fun _ => false }

/-- A client in offline/testing mode. -/
def cTestMode : Client := { testData := ["preloaded"] }

/-- A client with the shared ARN configured and both tokens cached. -/
def cSharedArn : Client :=
  { Arn := "arn-shared", FirewallJwt := "oldfw", RulestackJwt := "oldrs" }

/-- A role-assumption oracle that always fails. -/
def arFail : String → Except Err Creds := fun _ => .error .assumeRoleFailure

/-- A token-fetch oracle that always succeeds with token J. -/
def fjConst : String → Creds → Except Err String := fun _ _ => .ok "J"

/-- A client with both admin role ARNs configured. -/
def cBothArns : Client := { LfaArn := "lfa", LraArn := "lra" }

/-- A role-assumption oracle succeeding only for the firewall role. -/
def arLfaOnly : String → Except Err Creds :=
  fun s => if s = "lfa" then .ok {} else .error .assumeRoleFailure

/-- A client with environment reading enabled and nothing else set. -/
def cLogEnv : Client := { CheckEnvironment := true }

/-- The request cFw assembles for a firewall-scope GET of path a. -/
def rFwBuilt : Request :=
  { method := "GET", url := "https://h/a",
    headers := [("Content-Type", "application/json"), ("Authorization", "fw")], body := "" }

/- ---------------------------------------------------------------------
Helper lemmas.
--------------------------------------------------------------------- -/

theorem parseJson_testStub : parseJson testStub = none := by rfl

theorem sendIt_client (c : Client) (built reqS : Request) (output : Option OkBehavior)
    (doSend : Request → Except Err String) :
    (sendIt c built reqS output doSend).client = c := by
  unfold sendIt finishResp
  repeat' split
  all_goals rfl

theorem sendPhase_client (c : Client) (req2 : Request) (output : Option OkBehavior)
    (creds : List Creds) (sign : Request → String → Except Err Request)
    (doSend : Request → Except Err String) :
    (sendPhase c req2 output creds sign doSend).client = c := by
  unfold sendPhase
  dsimp only
  repeat' split
  all_goals first
    | rfl
    | apply sendIt_client

theorem finishResp_client (c : Client) (built sent : Option Request) (body : String)
    (output : Option OkBehavior) :
    (finishResp c built sent body output).client = c := by
  unfold finishResp
  repeat' split
  all_goals rfl

/-- C10: Communicate reads the client (tokens, headers, region, base
URI, test-mode flag) but writes no client field: the client component of
the result equals the input client for every combination of arguments
and oracle outcomes. -/
theorem communicate_frame (c : Client) (auth method : String) (path : List String)
    (input : Option (Except Err String)) (output : Option OkBehavior) (creds : List Creds)
    (sign : Request → String → Except Err Request) (doSend : Request → Except Err String) :
    (Communicate c auth method path input output creds sign doSend).client = c := by
  unfold Communicate
  repeat' split
  all_goals first
    | rfl
    | apply finishResp_client
    | apply sendPhase_client

/-- C6: two or more credential sets are rejected up front: the result is
the InvalidArgument error alone, with no request assembled, nothing
sent, and no body, independently of every other argument. -/
theorem creds_guard (c : Client) (auth method : String) (path : List String)
    (input : Option (Except Err String)) (output : Option OkBehavior) (creds : List Creds)
    (sign : Request → String → Except Err Request) (doSend : Request → Except Err String)
    (h2 : 2 ≤ creds.length) :
    Communicate c auth method path input output creds sign doSend =
      ⟨c, none, none, none, some Err.onlyOneCreds⟩ := by
  unfold Communicate
  rw [if_pos (by omega)]

/-- Witness for creds_guard at a concrete two-credential call. -/
theorem creds_guard_witness :
    Communicate emptyClient "" "GET" [] none none [{}, {}] signId (sendConst "x") =
      ⟨emptyClient, none, none, none, some Err.onlyOneCreds⟩ :=
  creds_guard emptyClient "" "GET" [] none none [{}, {}] signId (sendConst "x") (by decide)

/-- C9: in offline/testing mode with an output target the fixed stub
body is not valid JSON, so the call returns the stub body with the
unmarshal error, independently of the target's Ok() behavior. -/
theorem offline_stub_unmarshal (c : Client) (auth method : String) (path : List String)
    (input : Option (Except Err String)) (ob : OkBehavior) (creds : List Creds)
    (sign : Request → String → Except Err Request) (doSend : Request → Except Err String)
    (htest : c.testData ≠ []) (hcreds : creds.length ≤ 1)
    (hinput : input = none ∨ ∃ d, input = some (Except.ok d)) :
    Communicate c auth method path input (some ob) creds sign doSend =
      ⟨c, none, none, some testStub, some Err.unmarshalFailure⟩ := by
  have hlen : 0 < c.testData.length := List.length_pos.mpr htest
  have h1 : ¬ (creds.length > 1) := by omega
  rcases hinput with rfl | ⟨d, rfl⟩ <;>
    simp only [Communicate, finishResp, h1, hlen, parseJson_testStub, if_true, if_false,
      ite_true, ite_false, reduceIte]

/-- Witness for offline_stub_unmarshal on the test-mode client with a
target that would report failure. -/
theorem offline_stub_unmarshal_witness :
    Communicate cTestMode "" "GET" ["a"] none (some obReject) [] signId (sendConst "x") =
      ⟨cTestMode, none, none, some testStub, some Err.unmarshalFailure⟩ :=
  offline_stub_unmarshal cTestMode "" "GET" ["a"] none obReject [] signId (sendConst "x")
    (by simp [cTestMode]) (by decide) (Or.inl rfl)

/-- C4 counterexample: with a non-empty shared ARN but a failing AWS
session construction, RefreshJwts returns the session error, not the
UnsupportedOperation error, because the shared-ARN guard sits after the
session is built (client.go lines 123-139). -/
theorem shared_arn_counterexample :
    (RefreshJwts cSharedArn (Except.error Err.sessionFailure) arFail fjConst).2 =
        some Err.sessionFailure ∧
      Err.sessionFailure ≠ Err.sharedArnNoEndpoint ∧ cSharedArn.Arn ≠ "" := by
  refine ⟨rfl, by decide, by decide⟩

/-- C4 (amended): for every client with a non-empty shared ARN, if the
AWS session construction succeeds RefreshJwts fails with the
UnsupportedOperation error, and in every case (session success or
failure) no client field -- in particular neither firewallJwt nor
rulestackJwt -- is modified. -/
theorem shared_arn_guard (c : Client) (sess : Except Err Unit)
    (assumeRole : String → Except Err Creds) (fetchJwt : String → Creds → Except Err String)
    (hArn : c.Arn ≠ "") :
    (sess = Except.ok () → RefreshJwts c sess assumeRole fetchJwt =
        (c, some Err.sharedArnNoEndpoint)) ∧
      (RefreshJwts c sess assumeRole fetchJwt).1 = c := by
  constructor
  · intro h
    subst h
    unfold RefreshJwts
    simp [hArn]
  · unfold RefreshJwts
    rcases sess with e | u
    · rfl
    · simp [hArn]

/-- Witness for shared_arn_guard: concrete shared-ARN client, successful
session, both tokens untouched. -/
theorem shared_arn_guard_witness :
    RefreshJwts cSharedArn (Except.ok ()) arFail fjConst =
        (cSharedArn, some Err.sharedArnNoEndpoint) ∧
      (RefreshJwts cSharedArn (Except.ok ()) arFail fjConst).1.FirewallJwt = "oldfw" := by
  have h := shared_arn_guard cSharedArn (Except.ok ()) arFail fjConst (by decide)
  refine ⟨h.1 rfl, ?_⟩
  rw [h.2]
  rfl

/-- C5: with both role ARNs set, when the firewall step succeeds and the
rulestack step then fails (in role assumption or token fetch),
RefreshJwts returns that error, firewallJwt keeps the newly fetched
token, and rulestackJwt is untouched. -/
theorem partial_refresh (c : Client) (sess : Except Err Unit)
    (assumeRole : String → Except Err Creds) (fetchJwt : String → Creds → Except Err String)
    (jwt1 : String) (e : Err)
    (hArn : c.Arn = "") (hsess : sess = Except.ok ())
    (hLfa : c.LfaArn ≠ "") (hLra : c.LraArn ≠ "")
    (hfw : ∃ cr, assumeRole c.LfaArn = Except.ok cr ∧
             fetchJwt "cloudfirewalladmin" cr = Except.ok jwt1)
    (hrs : assumeRole c.LraArn = Except.error e ∨
           ∃ cr2, assumeRole c.LraArn = Except.ok cr2 ∧
             fetchJwt "cloudrulestackadmin" cr2 = Except.error e) :
    (RefreshJwts c sess assumeRole fetchJwt).2 = some e ∧
      (RefreshJwts c sess assumeRole fetchJwt).1.FirewallJwt = jwt1 ∧
      (RefreshJwts c sess assumeRole fetchJwt).1.RulestackJwt = c.RulestackJwt := by
  subst hsess
  rcases hfw with ⟨cr, har, hfj⟩
  have key : RefreshJwts c (Except.ok ()) assumeRole fetchJwt =
      ({ c with FirewallJwt := jwt1 }, some e) := by
    unfold RefreshJwts
    simp only [hArn, ne_eq, not_true_eq_false, if_false, ite_false, if_neg, hLfa, if_pos,
      har, hfj, reduceIte]
    rcases hrs with hra | ⟨cr2, hra2, hfj2⟩
    · simp [hLfa, har, hfj, hLra, hra]
    · simp [hLfa, har, hfj, hLra, hra2, hfj2]
  rw [key]
  exact ⟨rfl, rfl, rfl⟩

/-- Witness for partial_refresh: firewall role assumes and fetches J,
rulestack role assumption fails. -/
theorem partial_refresh_witness :
    (RefreshJwts cBothArns (Except.ok ()) arLfaOnly fjConst).2 = some Err.assumeRoleFailure ∧
      (RefreshJwts cBothArns (Except.ok ()) arLfaOnly fjConst).1.FirewallJwt = "J" ∧
      (RefreshJwts cBothArns (Except.ok ()) arLfaOnly fjConst).1.RulestackJwt = "" :=
  partial_refresh cBothArns (Except.ok ()) arLfaOnly fjConst "J" Err.assumeRoleFailure
    (by decide) rfl (by decide) (by decide)
    ⟨{}, rfl, rfl⟩ (Or.inl rfl)

theorem finishResp_built (c : Client) (built sent : Option Request) (body : String)
    (output : Option OkBehavior) : (finishResp c built sent body output).built = built := by
  unfold finishResp
  repeat' split
  all_goals rfl

theorem sendIt_built (c : Client) (b reqS : Request) (output : Option OkBehavior)
    (doSend : Request → Except Err String) :
    (sendIt c b reqS output doSend).built = some b := by
  unfold sendIt finishResp
  repeat' split
  all_goals rfl

theorem sendPhase_built (c : Client) (req2 : Request) (output : Option OkBehavior)
    (creds : List Creds) (sign : Request → String → Except Err Request)
    (doSend : Request → Except Err String) :
    (sendPhase c req2 output creds sign doSend).built =
      some (c.Headers.foldl (fun r p => { r with headers := setHeader r.headers p.1 p.2 }) req2) := by
  unfold sendPhase
  dsimp only
  repeat' split
  all_goals first | rfl | apply sendIt_built


theorem find?_setEntries (l : List (String × String)) (ck2 ck v : String) (hne : ck2 ≠ ck) :
    (l.map (fun p => if p.1 = ck2 then (ck2, v) else p)).find? (fun p => p.1 = ck) =
      l.find? (fun p => p.1 = ck) := by
  induction l with
  | nil => rfl
  | cons q rest ih =>
    simp only [List.map_cons]
    by_cases hq2 : q.1 = ck2
    · rw [if_pos hq2]
      rw [List.find?_cons_of_neg _ (by simp only [decide_eq_true_eq]; exact hne),
        List.find?_cons_of_neg _
          (by simp only [decide_eq_true_eq]; exact fun hcon => hne (hq2.symm.trans hcon))]
      exact ih
    · rw [if_neg hq2]
      by_cases hq : q.1 = ck
      · rw [List.find?_cons_of_pos _ (by simp only [decide_eq_true_eq]; exact hq),
          List.find?_cons_of_pos _ (by simp only [decide_eq_true_eq]; exact hq)]
      · rw [List.find?_cons_of_neg _ (by simp only [decide_eq_true_eq]; exact hq),
          List.find?_cons_of_neg _ (by simp only [decide_eq_true_eq]; exact hq)]
        exact ih

theorem getHeader_setHeader_ne (hs : List (String × String)) (k2 k v : String)
    (h : canonicalKey k2 ≠ canonicalKey k) :
    getHeader (setHeader hs k2 v) k = getHeader hs k := by
  unfold setHeader getHeader
  dsimp only
  split
  · rw [find?_setEntries hs (canonicalKey k2) (canonicalKey k) v h]
  · rw [List.find?_append]
    have hsing :
        List.find? (fun p => decide (p.1 = canonicalKey k)) [(canonicalKey k2, v)] = none := by
      simp [h]
    rw [hsing, Option.or_none]

theorem getHeader_foldl_setHeader (hs : List (String × String)) (k : String) (r : Request)
    (h : ∀ p ∈ hs, canonicalKey p.1 ≠ canonicalKey k) :
    getHeader (hs.foldl (fun r p => { r with headers := setHeader r.headers p.1 p.2 }) r).headers k =
      getHeader r.headers k := by
  induction hs generalizing r with
  | nil => rfl
  | cons q rest ih =>
    simp only [List.foldl_cons]
    rw [ih _ (fun p hp => h p (List.mem_cons_of_mem _ hp))]
    exact getHeader_setHeader_ne _ _ _ _ (h q (List.mem_cons_self _ _))

/-- The value the Authorization header holds in the assembled (pre-sign)
request, for each recognized scope, when the custom headers avoid the
Authorization key. -/
theorem communicate_auth_header (c : Client) (auth method : String) (path : List String)
    (input : Option (Except Err String)) (output : Option OkBehavior) (creds : List Creds)
    (sign : Request → String → Except Err Request) (doSend : Request → Except Err String)
    (r : Request) (w : Option String)
    (hhdr : ∀ p ∈ c.Headers, canonicalKey p.1 ≠ "Authorization")
    (hcase : (auth = "" ∧ w = none) ∨ (auth = permissions.Firewall ∧ w = some c.FirewallJwt) ∨
             (auth = permissions.Rulestack ∧ w = some c.RulestackJwt))
    (hb : (Communicate c auth method path input output creds sign doSend).built = some r) :
    getHeader r.headers "Authorization" = w := by
  have hcanon : ∀ p ∈ c.Headers, canonicalKey p.1 ≠ canonicalKey "Authorization" := by
    intro p hp
    have hA : canonicalKey "Authorization" = "Authorization" := by rfl
    rw [hA]
    exact hhdr p hp
  revert hb
  unfold Communicate
  split
  · intro hb
    simp at hb
  · split
    · intro hb
      simp at hb
    · split
      · rw [finishResp_built]
        intro hb
        simp at hb
      · split
        · intro hb
          simp at hb
        · rcases hcase with ⟨ha, hw⟩ | ⟨ha, hw⟩ | ⟨ha, hw⟩ <;> subst ha <;> subst hw
          · rw [if_pos rfl, sendPhase_built]
            intro hb
            have hr := Option.some.inj hb
            subst hr
            rw [getHeader_foldl_setHeader _ _ _ hcanon]
            rfl
          · rw [if_neg (by decide), if_pos rfl, sendPhase_built]
            intro hb
            have hr := Option.some.inj hb
            subst hr
            rw [getHeader_foldl_setHeader _ _ _ hcanon]
            rfl
          · rw [if_neg (by decide), if_neg (by decide), if_pos rfl, sendPhase_built]
            intro hb
            have hr := Option.some.inj hb
            subst hr
            rw [getHeader_foldl_setHeader _ _ _ hcanon]
            rfl

/-- C2 counterexample: a call with scope none (empty string) on a client
whose custom headers contain an Authorization entry assembles a request
whose Authorization header is set (to the custom value), because the
custom-header loop runs after the auth switch and overwrites; the claim
says scope none leaves the header unset. -/
theorem auth_header_counterexample :
    ((Communicate cAuthHdr "" "GET" ["p"] none none [] signId (sendConst "done")).built).map
        (fun q => getHeader q.headers "Authorization") = some (some "custom") ∧
      ((Communicate cAuthHdr "" "GET" ["p"] none none [] signId (sendConst "done")).sent).map
        (fun q => getHeader q.headers "Authorization") = some (some "custom") := by
  constructor <;> decide

/-- C2 (amended): for every Communicate call whose configured custom
headers contain no Authorization entry, the assembled (pre-signing)
request carries Authorization equal to firewallJwt for scope firewall,
to rulestackJwt for scope rulestack, and no Authorization header for
scope none (the empty string); and once the credential-count, payload
marshal, test-mode and request-construction steps pass, any other scope
value returns the InvalidArgument error with nothing assembled or
sent. -/
theorem auth_header_amended (c : Client) (auth method : String) (path : List String)
    (input : Option (Except Err String)) (output : Option OkBehavior) (creds : List Creds)
    (sign : Request → String → Except Err Request) (doSend : Request → Except Err String)
    (hhdr : ∀ p ∈ c.Headers, canonicalKey p.1 ≠ "Authorization") :
    (∀ r, auth = "" →
      (Communicate c auth method path input output creds sign doSend).built = some r →
      getHeader r.headers "Authorization" = none) ∧
    (∀ r, auth = permissions.Firewall →
      (Communicate c auth method path input output creds sign doSend).built = some r →
      getHeader r.headers "Authorization" = some c.FirewallJwt) ∧
    (∀ r, auth = permissions.Rulestack →
      (Communicate c auth method path input output creds sign doSend).built = some r →
      getHeader r.headers "Authorization" = some c.RulestackJwt) ∧
    (auth ≠ "" → auth ≠ permissions.Firewall → auth ≠ permissions.Rulestack →
      creds.length ≤ 1 → (input = none ∨ ∃ d, input = some (Except.ok d)) →
      c.testData = [] → validMethod (newReqMethod method) = true →
      Communicate c auth method path input output creds sign doSend =
        ⟨c, none, none, none, some (Err.unknownAuth auth)⟩) := by
  refine ⟨?_, ?_, ?_, ?_⟩
  · intro r ha hb
    exact communicate_auth_header c auth method path input output creds sign doSend r none hhdr
      (Or.inl ⟨ha, rfl⟩) hb
  · intro r ha hb
    exact communicate_auth_header c auth method path input output creds sign doSend r
      (some c.FirewallJwt) hhdr (Or.inr (Or.inl ⟨ha, rfl⟩)) hb
  · intro r ha hb
    exact communicate_auth_header c auth method path input output creds sign doSend r
      (some c.RulestackJwt) hhdr (Or.inr (Or.inr ⟨ha, rfl⟩)) hb
  · intro h1 h2 h3 hcred hinp htd hvm
    have hc : ¬ (creds.length > 1) := by omega
    rcases hinp with rfl | ⟨d, rfl⟩ <;>
      simp only [Communicate, hc, htd, hvm, h1, h2, h3, List.length_nil, gt_iff_lt,
        Nat.lt_irrefl, if_false, ite_false, Bool.not_true, Bool.false_eq_true,
        reduceIte, ite_self]

/-- Witness for auth_header_amended: concrete firewall-scope call on a
client without custom headers; the assembled request carries the cached
firewall token. -/
theorem auth_header_amended_witness :
    getHeader rFwBuilt.headers "Authorization" = some "fw" :=
  (auth_header_amended cFw permissions.Firewall "GET" ["a"] none none [] signId
      (sendConst "done") (by decide)).2.1 rFwBuilt rfl (by decide)

theorem sendIt_apiError (c : Client) (bt q : Request) (ob : OkBehavior)
    (doSend : Request → Except Err String) (b : String) (j : Json)
    (hsend : doSend q = Except.ok b) (hparse : parseJson b = some j)
    (hdec : ob.decodeOk j = true) (hok : ob.ok j = false) :
    sendIt c bt q (some ob) doSend = ⟨c, some bt, some q, some b, some Err.apiError⟩ := by
  unfold sendIt finishResp
  rw [hsend]
  dsimp only
  rw [hparse]
  simp [hdec, hok]

theorem sendPhase_apiError (c : Client) (req2 : Request) (ob : OkBehavior) (creds : List Creds)
    (sign : Request → String → Except Err Request) (doSend : Request → Except Err String)
    (b : String) (j : Json)
    (hsign : ∀ q s, ∃ q2, sign q s = Except.ok q2)
    (hsend : ∀ q, doSend q = Except.ok b) (hparse : parseJson b = some j)
    (hdec : ob.decodeOk j = true) (hok : ob.ok j = false) :
    (sendPhase c req2 (some ob) creds sign doSend).body = some b ∧
      (sendPhase c req2 (some ob) creds sign doSend).err = some Err.apiError := by
  unfold sendPhase
  dsimp only
  split
  · rcases hsign (c.Headers.foldl
        (fun r p => { r with headers := setHeader r.headers p.1 p.2 }) req2) c.Region with ⟨q2, hq⟩
    rw [hq]
    dsimp only
    rw [sendIt_apiError c _ q2 ob doSend b j (hsend q2) hparse hdec hok]
    exact ⟨rfl, rfl⟩
  · rw [sendIt_apiError c _ _ ob doSend b j (hsend _) hparse hdec hok]
    exact ⟨rfl, rfl⟩

/-- C3: whenever a response body deserializes into the supplied output
target but the target's Ok() check reports failure, Communicate returns
the raw body together with the target as a non-nil ApiError. -/
theorem ok_failure_apierror (c : Client) (auth method : String) (path : List String)
    (input : Option (Except Err String)) (ob : OkBehavior) (creds : List Creds)
    (sign : Request → String → Except Err Request) (doSend : Request → Except Err String)
    (b : String) (j : Json)
    (htest : c.testData = [])
    (hcreds : creds.length ≤ 1)
    (hinput : input = none ∨ ∃ d, input = some (Except.ok d))
    (hmethod : validMethod (newReqMethod method) = true)
    (hauth : auth = "" ∨ auth = permissions.Firewall ∨ auth = permissions.Rulestack)
    (hsign : ∀ q s, ∃ q2, sign q s = Except.ok q2)
    (hsend : ∀ q, doSend q = Except.ok b)
    (hparse : parseJson b = some j)
    (hdec : ob.decodeOk j = true) (hok : ob.ok j = false) :
    (Communicate c auth method path input (some ob) creds sign doSend).body = some b ∧
      (Communicate c auth method path input (some ob) creds sign doSend).err =
        some Err.apiError := by
  have hc : ¬ (creds.length > 1) := by omega
  rcases hinput with rfl | ⟨d, rfl⟩ <;>
    [skip; skip] <;>
    · simp only [Communicate, hc, htest, hmethod, List.length_nil, gt_iff_lt, Nat.lt_irrefl,
        if_false, ite_false, Bool.not_true, Bool.false_eq_true, reduceIte, ite_self]
      rcases hauth with ha | ha | ha <;> subst ha
      · simp only [reduceIte]
        exact sendPhase_apiError _ _ _ _ _ _ b j hsign hsend hparse hdec hok
      · rw [if_neg (by decide), if_pos rfl]
        exact sendPhase_apiError _ _ _ _ _ _ b j hsign hsend hparse hdec hok
      · rw [if_neg (by decide), if_neg (by decide), if_pos rfl]
        exact sendPhase_apiError _ _ _ _ _ _ b j hsign hsend hparse hdec hok

/-- Witness for ok_failure_apierror: the body true parses, the target
accepts it and reports failure; the call returns the body and ApiError. -/
theorem ok_failure_apierror_witness :
    (Communicate emptyClient "" "GET" ["x"] none (some obReject) [] signId
        (sendConst "true")).body = some "true" ∧
      (Communicate emptyClient "" "GET" ["x"] none (some obReject) [] signId
        (sendConst "true")).err = some Err.apiError :=
  ok_failure_apierror emptyClient "" "GET" ["x"] none obReject [] signId (sendConst "true")
    "true" (Json.jbool true) rfl (by decide) (Or.inl rfl) (by decide) (Or.inl rfl)
    (fun q s => ⟨q, rfl⟩) (fun q => rfl) rfl rfl rfl

theorem runSteps_inv (P : Client → Prop) :
    ∀ (steps : List (Client → Client × Option Err)),
      (∀ f ∈ steps, ∀ d, P d → P (f d).1) → ∀ c, P c → P (runSteps steps c).1 := by
  intro steps
  induction steps with
  | nil =>
    intro _ c hc
    simpa [runSteps] using hc
  | cons f rest ih =>
    intro h c hc
    have hf := h f (List.mem_cons_self _ _) c hc
    rcases hfc : f c with ⟨c2, oe⟩
    rw [hfc] at hf
    cases oe with
    | none =>
      have hrest := ih (fun g hg => h g (List.mem_cons_of_mem _ hg)) c2 hf
      simpa [runSteps, hfc] using hrest
    | some e => simpa [runSteps, hfc] using hf

theorem initCon_keeps_Host (c : Client) (env : String → String) (fl : Except Err Client)
    (h : c.Host ≠ "") : ((initCon c env fl).1).Host = c.Host := by
  unfold initCon
  split
  · rfl
  · refine runSteps_inv (fun d => d.Host = c.Host) (stepList env _) ?_ c rfl
    intro f hf d hd
    simp only [stepList, List.mem_cons, List.not_mem_nil, or_false] at hf
    rcases hf with rfl|rfl|rfl|rfl|rfl|rfl|rfl|rfl|rfl|rfl|rfl <;>
      simp only [hostStep, regionStep, protocolStep, protocolCheck, timeoutStep, timeoutCheck,
        headersStep, skipVerifyStep, loggingStep, sanityCheck, apiRootStep] <;>
      (repeat' split) <;>
      first | exact hd | simp_all

theorem initCon_keeps_Region (c : Client) (env : String → String) (fl : Except Err Client)
    (h : c.Region ≠ "") : ((initCon c env fl).1).Region = c.Region := by
  unfold initCon
  split
  · rfl
  · refine runSteps_inv (fun d => d.Region = c.Region) (stepList env _) ?_ c rfl
    intro f hf d hd
    simp only [stepList, List.mem_cons, List.not_mem_nil, or_false] at hf
    rcases hf with rfl|rfl|rfl|rfl|rfl|rfl|rfl|rfl|rfl|rfl|rfl <;>
      simp only [hostStep, regionStep, protocolStep, protocolCheck, timeoutStep, timeoutCheck,
        headersStep, skipVerifyStep, loggingStep, sanityCheck, apiRootStep] <;>
      (repeat' split) <;>
      first | exact hd | simp_all

theorem initCon_keeps_Protocol (c : Client) (env : String → String) (fl : Except Err Client)
    (h : c.Protocol ≠ "") : ((initCon c env fl).1).Protocol = c.Protocol := by
  unfold initCon
  split
  · rfl
  · refine runSteps_inv (fun d => d.Protocol = c.Protocol) (stepList env _) ?_ c rfl
    intro f hf d hd
    simp only [stepList, List.mem_cons, List.not_mem_nil, or_false] at hf
    rcases hf with rfl|rfl|rfl|rfl|rfl|rfl|rfl|rfl|rfl|rfl|rfl <;>
      simp only [hostStep, regionStep, protocolStep, protocolCheck, timeoutStep, timeoutCheck,
        headersStep, skipVerifyStep, loggingStep, sanityCheck, apiRootStep] <;>
      (repeat' split) <;>
      first | exact hd | simp_all

theorem initCon_keeps_Timeout (c : Client) (env : String → String) (fl : Except Err Client)
    (h : c.Timeout ≠ 0) : ((initCon c env fl).1).Timeout = c.Timeout := by
  unfold initCon
  split
  · rfl
  · refine runSteps_inv (fun d => d.Timeout = c.Timeout) (stepList env _) ?_ c rfl
    intro f hf d hd
    simp only [stepList, List.mem_cons, List.not_mem_nil, or_false] at hf
    rcases hf with rfl|rfl|rfl|rfl|rfl|rfl|rfl|rfl|rfl|rfl|rfl <;>
      simp only [hostStep, regionStep, protocolStep, protocolCheck, timeoutStep, timeoutCheck,
        headersStep, skipVerifyStep, loggingStep, sanityCheck, apiRootStep] <;>
      (repeat' split) <;>
      first | exact hd | simp_all

theorem initCon_keeps_Headers (c : Client) (env : String → String) (fl : Except Err Client)
    (h : c.Headers ≠ []) : ((initCon c env fl).1).Headers = c.Headers := by
  unfold initCon
  split
  · rfl
  · refine runSteps_inv (fun d => d.Headers = c.Headers) (stepList env _) ?_ c rfl
    intro f hf d hd
    simp only [stepList, List.mem_cons, List.not_mem_nil, or_false] at hf
    rcases hf with rfl|rfl|rfl|rfl|rfl|rfl|rfl|rfl|rfl|rfl|rfl <;>
      simp only [hostStep, regionStep, protocolStep, protocolCheck, timeoutStep, timeoutCheck,
        headersStep, skipVerifyStep, loggingStep, sanityCheck, apiRootStep] <;>
      (repeat' split) <;>
      first | exact hd | simp_all

theorem initCon_keeps_Logging (c : Client) (env : String → String) (fl : Except Err Client)
    (h : c.Logging ≠ 0) : ((initCon c env fl).1).Logging = c.Logging := by
  unfold initCon
  split
  · rfl
  · refine runSteps_inv (fun d => d.Logging = c.Logging) (stepList env _) ?_ c rfl
    intro f hf d hd
    simp only [stepList, List.mem_cons, List.not_mem_nil, or_false] at hf
    rcases hf with rfl|rfl|rfl|rfl|rfl|rfl|rfl|rfl|rfl|rfl|rfl <;>
      simp only [hostStep, regionStep, protocolStep, protocolCheck, timeoutStep, timeoutCheck,
        headersStep, skipVerifyStep, loggingStep, sanityCheck, apiRootStep] <;>
      (repeat' split) <;>
      first | exact hd | simp_all

/-- C1: explicitly set configuration always wins: a non-empty (non-zero)
host, region, protocol, timeout, headers or logging value on the client
survives initCon unchanged, for every environment and every
credentials-file outcome, on success and on error alike. -/
theorem config_explicit_precedence (c : Client) (env : String → String)
    (fl : Except Err Client) :
    (c.Host ≠ "" → ((initCon c env fl).1).Host = c.Host) ∧
    (c.Region ≠ "" → ((initCon c env fl).1).Region = c.Region) ∧
    (c.Protocol ≠ "" → ((initCon c env fl).1).Protocol = c.Protocol) ∧
    (c.Timeout ≠ 0 → ((initCon c env fl).1).Timeout = c.Timeout) ∧
    (c.Headers ≠ [] → ((initCon c env fl).1).Headers = c.Headers) ∧
    (c.Logging ≠ 0 → ((initCon c env fl).1).Logging = c.Logging) :=
  ⟨initCon_keeps_Host c env fl, initCon_keeps_Region c env fl,
   initCon_keeps_Protocol c env fl, initCon_keeps_Timeout c env fl,
   initCon_keeps_Headers c env fl, initCon_keeps_Logging c env fl⟩

/-- Witness for config_explicit_precedence: every explicit field of
cExplicit survives, against an environment answering zzz everywhere and
a populated credentials file. -/
theorem config_explicit_precedence_witness :
    ((initCon cExplicit (envConst "zzz") flPopulated).1).Host = "h" ∧
      ((initCon cExplicit (envConst "zzz") flPopulated).1).Protocol = "http" ∧
      ((initCon cExplicit (envConst "zzz") flPopulated).1).Timeout = 7 ∧
      ((initCon cExplicit (envConst "zzz") flPopulated).1).Logging = 5 := by
  have h := config_explicit_precedence cExplicit (envConst "zzz") flPopulated
  exact ⟨h.1 (by decide), h.2.2.1 (by decide), h.2.2.2.1 (by decide),
    h.2.2.2.2.2 (by decide)⟩

/-- C7: with only host and region set, no environment reading and no
credentials file, initCon succeeds and resolves protocol https, timeout
20 and the default logging bitmask. -/
theorem scenario_default_resolution (c : Client) (env : String → String)
    (fl : Except Err Client)
    (hH : c.Host ≠ "") (hR : c.Region ≠ "") (hP : c.Protocol = "") (hT : c.Timeout = 0)
    (hHd : c.Headers = []) (hL : c.Logging = 0) (hCE : c.CheckEnvironment = false)
    (hCF : c.credsFile = "") :
    (initCon c env fl).2 = none ∧
      ((initCon c env fl).1).Protocol = "https" ∧
      ((initCon c env fl).1).Timeout = 20 ∧
      ((initCon c env fl).1).Logging = (LogLogin ||| LogPost ||| LogPut ||| LogDelete) := by
  unfold initCon
  rw [if_pos hCF]
  cases hsv : c.SkipVerifyCertificate <;>
    simp +decide [runSteps, stepList, hostStep, regionStep, protocolStep, protocolCheck,
      timeoutStep, timeoutCheck, headersStep, skipVerifyStep, loggingStep, loggingList,
      sanityCheck, apiRootStep, emptyClient, hH, hR, hP, hT, hHd, hL, hCE, hsv]

/-- Witness for scenario_default_resolution on the concrete host/region
client. -/
theorem scenario_default_resolution_witness :
    (initCon cHostRegion envNone (Except.ok emptyClient)).2 = none ∧
      ((initCon cHostRegion envNone (Except.ok emptyClient)).1).Protocol = "https" ∧
      ((initCon cHostRegion envNone (Except.ok emptyClient)).1).Timeout = 20 ∧
      ((initCon cHostRegion envNone (Except.ok emptyClient)).1).Logging =
        (LogLogin ||| LogPost ||| LogPut ||| LogDelete) :=
  scenario_default_resolution cHostRegion envNone (Except.ok emptyClient)
    (by decide) (by decide) rfl rfl rfl rfl rfl rfl

theorem parseLogFlags_unknown (ll : List String) (lv : Nat)
    (h : ∃ x ∈ ll, logFlagOf x = none) :
    ∃ y, parseLogFlags ll lv = Except.error (Err.unknownLoggingToken y) ∧ logFlagOf y = none := by
  induction ll generalizing lv with
  | nil =>
    rcases h with ⟨x, hx, _⟩
    cases hx
  | cons a rest ih =>
    rcases ha : logFlagOf a with _ | f
    · exact ⟨a, by simp [parseLogFlags, ha], ha⟩
    · rcases h with ⟨x, hx, hxu⟩
      rcases List.mem_cons.mp hx with rfl | hxr
      · rw [ha] at hxu
        cases hxu
      · have hrec := ih (lv ||| f) ⟨x, hxr, hxu⟩
        simpa [parseLogFlags, ha] using hrec

/-- C8: when the explicit bitmask is zero, an unknown token in the
resolved logging list makes the logging block fail with the
InvalidConfiguration error naming an unknown token, and an empty
resolved list sets exactly the default bitmask. -/
theorem logging_resolution (envv : String) (jc c : Client) (h0 : c.Logging = 0) :
    ((∃ x ∈ loggingList envv jc c, logFlagOf x = none) →
      ∃ y, (loggingStep envv jc c).2 = some (Err.unknownLoggingToken y) ∧ logFlagOf y = none) ∧
    (loggingList envv jc c = [] →
      loggingStep envv jc c =
        ({ c with Logging := LogLogin ||| LogPost ||| LogPut ||| LogDelete }, none)) := by
  constructor
  · intro hex
    rcases parseLogFlags_unknown (loggingList envv jc c) 0 hex with ⟨y, hy, hyu⟩
    refine ⟨y, ?_, hyu⟩
    unfold loggingStep
    rw [if_pos h0]
    have hlen : (loggingList envv jc c).length > 0 := by
      rcases hex with ⟨x, hx, _⟩
      exact List.length_pos.mpr (List.ne_nil_of_mem hx)
    rw [if_pos hlen, hy]
  · intro hnil
    unfold loggingStep
    rw [if_pos h0, hnil]
    simp

/-- Witness for logging_resolution: the environment token bogus fails;
an unset environment with an empty file list yields the default
bitmask. -/
theorem logging_resolution_witness :
    (∃ y, (loggingStep "bogus" emptyClient cLogEnv).2 = some (Err.unknownLoggingToken y) ∧
      logFlagOf y = none) ∧
    loggingStep "" emptyClient cLogEnv =
      ({ cLogEnv with Logging := LogLogin ||| LogPost ||| LogPut ||| LogDelete }, none) := by
  constructor
  · exact (logging_resolution "bogus" emptyClient cLogEnv rfl).1 (by decide)
  · exact (logging_resolution "" emptyClient cLogEnv rfl).2 (by decide)
